import Mathlib

/-!
Verification of the import-pipeline client `src/static/api_import_common.js`
of vnix-warehouse, against its natural-language specification.

JavaScript objects are shallowly embedded as ordered association lists
(`Obj`): `hasOwnProperty` is key membership, property read is first
occurrence, property assignment (`objSet`) overwrites in place or appends.
JavaScript truthiness of a string-or-null mapping value is: non-null and
non-empty.
-/

namespace ApiImport

/-- A JavaScript object, as an ordered association list from property
name to value; the first occurrence of a key is the one property reads
see (JS objects never hold duplicate keys, so lists built by `objSet`
are duplicate-free). -/
abbrev Obj (α : Type) := List (String × α)

/-- `r.hasOwnProperty k` of JavaScript. -/
def hasOwn {α : Type} (r : Obj α) (k : String) : Bool :=
  r.any (fun p => p.1 == k)

/-- Property read `r[k]`: the value at the first occurrence of `k`,
`none` when `k` is not an own property. -/
def getProp {α : Type} (r : Obj α) (k : String) : Option α :=
  (r.find? (fun p => p.1 == k)).map (fun p => p.2)

/-- Property assignment `r[k] = v`: overwrite in place when the key is
present, append otherwise (JS insertion-order semantics). -/
def objSet {α : Type} (r : Obj α) (k : String) (v : α) : Obj α :=
  if hasOwn r k then r.map (fun p => if p.1 = k then (k, v) else p)
  else r ++ [(k, v)]

/-- A field mapping (`mappingData`): canonical WMS field name to external
API field name or `null` (absent). -/
abbrev Mapping := Obj (Option String)

/-- One iteration of the loop in `reprocessPreviewWithMapping`
(api_import_common.js lines 415-419): for the entry `kv = (wmsField,
apiField)`, when `apiField` is truthy (non-null, non-empty) and
`row.hasOwnProperty(apiField)`, assign `mapped[wmsField] = row[apiField]`;
otherwise leave `mapped` unchanged. `getProp row f = some v` is exactly
`row.hasOwnProperty f` together with `row[f] = v`. -/
def reprocessStep {α : Type} (row : Obj α) (mapped : Obj α)
    (kv : String × Option String) : Obj α :=
  match kv.2 with
  | none => mapped
  | some apiField =>
    if apiField = "" then mapped
    else
      match getProp row apiField with
      | none => mapped
      | some v => objSet mapped kv.1 v

/-- One iteration of the identical inline loop in `handleConfirmImport`
(api_import_common.js lines 454-459). -/
def confirmStep {α : Type} (row : Obj α) (mapped : Obj α)
    (kv : String × Option String) : Obj α :=
  match kv.2 with
  | none => mapped
  | some apiField =>
    if apiField = "" then mapped
    else
      match getProp row apiField with
      | none => mapped
      | some v => objSet mapped kv.1 v

/-- The per-row body of `reprocessPreviewWithMapping`: build `mapped`
from `{}` by iterating over `Object.entries(mappingData)`. -/
def reprocessRow {α : Type} (m : Mapping) (row : Obj α) : Obj α :=
  m.foldl (reprocessStep row) []

/-- The per-row body of the inline mapping in `handleConfirmImport`. -/
def confirmRow {α : Type} (m : Mapping) (row : Obj α) : Obj α :=
  m.foldl (confirmStep row) []

/-- `reprocessPreviewWithMapping` (lines 413-421): maps every row of
`apiData` through the per-row remapping. -/
def reprocessPreviewWithMapping {α : Type} (m : Mapping)
    (rows : List (Obj α)) : List (Obj α) :=
  rows.map (reprocessRow m)

/-- `fullMappedData` of `handleConfirmImport` (lines 452-460): maps every
row of `apiData` through the identical per-row remapping. -/
def fullMappedData {α : Type} (m : Mapping) (rows : List (Obj α)) :
    List (Obj α) :=
  rows.map (confirmRow m)

/-- The spec's `applyMapping(rawRows, mapping)`: the mapping engine shared
by both code sites (its body is the one of `handleConfirmImport`). -/
def applyMapping {α : Type} (rows : List (Obj α)) (m : Mapping) :
    List (Obj α) :=
  rows.map (confirmRow m)

-- ===== Association-list lemmas for the JS object model =====

theorem getProp_nil {α : Type} (k : String) : getProp ([] : Obj α) k = none := rfl

theorem getProp_cons {α : Type} (p : String × α) (t : Obj α) (k : String) :
    getProp (p :: t) k = if p.1 = k then some p.2 else getProp t k := by
  by_cases h : p.1 = k
  · have hb : (p.1 == k) = true := by simpa using h
    simp [getProp, List.find?_cons_of_pos _ hb, h]
  · have hb : ¬ (p.1 == k) = true := by simpa using h
    simp [getProp, List.find?_cons_of_neg _ hb, h]

theorem hasOwn_iff_getProp {α : Type} (r : Obj α) (k : String) :
    hasOwn r k = (getProp r k).isSome := by
  induction r with
  | nil => rfl
  | cons p t ih =>
    by_cases h : p.1 = k
    · simp [hasOwn, getProp_cons, h]
    · simp only [hasOwn, List.any_cons] at ih ⊢
      simp [getProp_cons, h, ih]

theorem getProp_none_of_not_hasOwn {α : Type} (r : Obj α) (k : String)
    (h : ¬ hasOwn r k = true) : getProp r k = none := by
  rw [hasOwn_iff_getProp] at h
  cases hg : getProp r k with
  | none => rfl
  | some v => rw [hg] at h; simp at h

theorem getProp_append {α : Type} (r s : Obj α) (k : String) :
    getProp (r ++ s) k =
      match getProp r k with
      | some v => some v
      | none => getProp s k := by
  induction r with
  | nil => simp [getProp_nil]
  | cons p t ih =>
    by_cases h : p.1 = k
    · simp [getProp_cons, h]
    · simp [getProp_cons, h, ih]

/-- Overwriting the entries whose key is `k` does not change reads at `k'`. -/
theorem getProp_replace_ne {α : Type} (r : Obj α) (k k' : String) (v : α)
    (h : k' ≠ k) :
    getProp (r.map (fun p => if p.1 = k then (k, v) else p)) k'
      = getProp r k' := by
  induction r with
  | nil => rfl
  | cons p t ih =>
    by_cases hp : p.1 = k
    · have h1 : ¬ (k : String) = k' := fun he => h he.symm
      have h2 : ¬ p.1 = k' := by rw [hp]; exact h1
      simp [getProp_cons, hp, h1, h2, ih]
    · simp [getProp_cons, hp, ih]

/-- Overwriting the entries whose key is `k` makes reads at `k` return
the new value exactly when the key was present. -/
theorem getProp_replace_self {α : Type} (r : Obj α) (k : String) (v : α) :
    getProp (r.map (fun p => if p.1 = k then (k, v) else p)) k
      = (getProp r k).map (fun _ => v) := by
  induction r with
  | nil => rfl
  | cons p t ih =>
    by_cases hp : p.1 = k
    · simp [getProp_cons, hp]
    · simp [getProp_cons, hp, ih]

theorem getProp_objSet_self {α : Type} (r : Obj α) (k : String) (v : α) :
    getProp (objSet r k v) k = some v := by
  unfold objSet
  by_cases h : hasOwn r k
  · rw [if_pos h, getProp_replace_self]
    rw [hasOwn_iff_getProp] at h
    obtain ⟨w, hw⟩ := Option.isSome_iff_exists.mp h
    simp [hw]
  · rw [if_neg h, getProp_append, getProp_none_of_not_hasOwn r k h]
    simp [getProp_cons]

theorem getProp_objSet_ne {α : Type} (r : Obj α) (k k' : String) (v : α)
    (h : k' ≠ k) : getProp (objSet r k v) k' = getProp r k' := by
  unfold objSet
  by_cases hk : hasOwn r k
  · rw [if_pos hk]
    exact getProp_replace_ne r k k' v h
  · rw [if_neg hk, getProp_append]
    have h1 : ¬ (k : String) = k' := fun he => h he.symm
    simp [getProp_cons, getProp_nil, h1]
    cases getProp r k' <;> simp

/-- `confirmStep` changes nothing for keys other than the entry's own key. -/
theorem getProp_confirmStep_ne {α : Type} (row mapped : Obj α)
    (kv : String × Option String) (k : String) (h : kv.1 ≠ k) :
    getProp (confirmStep row mapped kv) k = getProp mapped k := by
  unfold confirmStep
  rcases kv with ⟨kw, o⟩
  cases o with
  | none => rfl
  | some f =>
    by_cases hf : f = ""
    · simp [hf]
    · simp only [hf, if_false]
      cases hv : getProp row f with
      | none => rfl
      | some v => exact getProp_objSet_ne mapped kw k v (fun he => h he.symm)

/-- Folding `confirmStep` over entries none of which carries key `k`
leaves the value at `k` unchanged. -/
theorem getProp_foldl_confirmStep_notMem {α : Type} (row : Obj α)
    (m : Mapping) (acc : Obj α) (k : String)
    (h : ∀ kv ∈ m, kv.1 ≠ k) :
    getProp (m.foldl (confirmStep row) acc) k = getProp acc k := by
  induction m generalizing acc with
  | nil => rfl
  | cons kv t ih =>
    have h0 : kv.1 ≠ k := h kv (List.mem_cons_self kv t)
    have ht : ∀ e ∈ t, e.1 ≠ k := fun e he => h e (List.mem_cons_of_mem kv he)
    rw [List.foldl_cons, ih (confirmStep row acc kv) ht,
      getProp_confirmStep_ne row acc kv k h0]

theorem keys_ne_of_not_memKeys {α : Type} (t : Obj α) (k : String)
    (h : k ∉ t.map Prod.fst) : ∀ e ∈ t, e.1 ≠ k := by
  intro e he hek
  exact h (hek ▸ List.mem_map_of_mem Prod.fst he)

theorem confirmStep_none {α : Type} (row mapped : Obj α) (k : String) :
    confirmStep row mapped (k, none) = mapped := rfl

theorem confirmStep_empty {α : Type} (row mapped : Obj α) (k : String) :
    confirmStep row mapped (k, some "") = mapped := rfl

theorem confirmStep_absent {α : Type} (row mapped : Obj α) (k f : String)
    (h : getProp row f = none) :
    confirmStep row mapped (k, some f) = mapped := by
  unfold confirmStep
  by_cases hf : f = ""
  · simp [hf]
  · simp [hf, h]

theorem confirmStep_present {α : Type} (row mapped : Obj α) (k f : String)
    (v : α) (hf : f ≠ "") (h : getProp row f = some v) :
    confirmStep row mapped (k, some f) = objSet mapped k v := by
  unfold confirmStep
  simp [hf, h]

/-- A mapping entry `(k, some f)` with `f` truthy and `f` an own key of
the row forces value `row[f]` at `k` in the folded result, provided the
mapping's keys are duplicate-free (JS objects always are). -/
theorem getProp_foldl_confirmStep_found {α : Type} (row : Obj α)
    (m : Mapping) (acc : Obj α) (k f : String) (v : α)
    (hn : (m.map Prod.fst).Nodup) (hm : (k, some f) ∈ m) (hf : f ≠ "")
    (hv : getProp row f = some v) :
    getProp (m.foldl (confirmStep row) acc) k = some v := by
  induction m generalizing acc with
  | nil => cases hm
  | cons kv t ih =>
    rw [List.map_cons, List.nodup_cons] at hn
    rcases List.mem_cons.mp hm with heq | hmem
    · have hk1 : kv.1 = k := by rw [← heq]
      have hnot : ∀ e ∈ t, e.1 ≠ k := keys_ne_of_not_memKeys t k (hk1 ▸ hn.1)
      rw [List.foldl_cons, ← heq, confirmStep_present row acc k f v hf hv,
        getProp_foldl_confirmStep_notMem row t (objSet acc k v) k hnot]
      exact getProp_objSet_self acc k v
    · rw [List.foldl_cons]
      exact ih (confirmStep row acc kv) hn.2 hmem

/-- A mapping entry for `k` that is `null`, empty, or names a source
field the row lacks leaves `k` absent in the folded result (for
duplicate-free mapping keys and an accumulator with `k` absent). -/
theorem getProp_foldl_confirmStep_omitted {α : Type} (row : Obj α)
    (m : Mapping) (acc : Obj α) (k : String) (ov : Option String)
    (hn : (m.map Prod.fst).Nodup) (hm : (k, ov) ∈ m)
    (hcond : ov = none ∨ ∃ f, ov = some f ∧ (f = "" ∨ getProp row f = none))
    (hacc : getProp acc k = none) :
    getProp (m.foldl (confirmStep row) acc) k = none := by
  induction m generalizing acc with
  | nil => cases hm
  | cons kv t ih =>
    rw [List.map_cons, List.nodup_cons] at hn
    rcases List.mem_cons.mp hm with heq | hmem
    · have hstep : confirmStep row acc kv = acc := by
        rw [← heq]
        rcases hcond with h0 | ⟨f, hf, hle | hla⟩
        · rw [h0]; rfl
        · rw [hf, hle]; rfl
        · rw [hf]; exact confirmStep_absent row acc k f hla
      have hk1 : kv.1 = k := by rw [← heq]
      have hnot : ∀ e ∈ t, e.1 ≠ k := keys_ne_of_not_memKeys t k (hk1 ▸ hn.1)
      rw [List.foldl_cons, hstep,
        getProp_foldl_confirmStep_notMem row t acc k hnot]
      exact hacc
    · have hkv : kv.1 ≠ k := by
        intro hek
        have : k ∈ t.map Prod.fst := List.mem_map_of_mem Prod.fst hmem
        exact hn.1 (hek ▸ this)
      have hacc' : getProp (confirmStep row acc kv) k = none := by
        rw [getProp_confirmStep_ne row acc kv k hkv]; exact hacc
      rw [List.foldl_cons]
      exact ih (confirmStep row acc kv) hn.2 hmem hacc'

-- ===== Claim theorems: mapping engine =====

/-- C1. The mapping engine (the shared body of
`reprocessPreviewWithMapping` and the inline loop of
`handleConfirmImport`) produces one output record per input record in
the same order, and for each record and each canonical field `k` with
mapping entry `(k, f)`: if `f` is set (truthy: non-null and non-empty,
the test `apiField &&` of the source) and `f` is an own key of the raw
record, the output record holds `row[f]` at `k`; if `f` is null, empty,
or the record lacks key `f`, the field `k` is omitted (no sentinel).
Stated for duplicate-free mapping keys, which JS objects guarantee. -/
theorem mapping_engine_field_semantics {α : Type} (rows : List (Obj α))
    (m : Mapping) (hn : (m.map Prod.fst).Nodup) :
    (∀ i : Nat, (applyMapping rows m)[i]? = (rows[i]?).map (confirmRow m)) ∧
    (∀ (row : Obj α) (k f : String) (v : α), (k, some f) ∈ m → f ≠ "" →
        getProp row f = some v → getProp (confirmRow m row) k = some v) ∧
    (∀ (row : Obj α) (k : String), (k, none) ∈ m →
        getProp (confirmRow m row) k = none) ∧
    (∀ (row : Obj α) (k f : String), (k, some f) ∈ m →
        (f = "" ∨ getProp row f = none) →
        getProp (confirmRow m row) k = none) := by
  refine ⟨?_, ?_, ?_, ?_⟩
  · intro i
    unfold applyMapping
    exact List.getElem?_map (confirmRow m) rows i
  · intro row k f v hm hf hv
    exact getProp_foldl_confirmStep_found row m [] k f v hn hm hf hv
  · intro row k hm
    exact getProp_foldl_confirmStep_omitted row m [] k none hn hm
      (Or.inl rfl) (getProp_nil k)
  · intro row k f hm hcond
    exact getProp_foldl_confirmStep_omitted row m [] k (some f) hn hm
      (Or.inr ⟨f, rfl, hcond⟩) (getProp_nil k)

/-- The spec's worked scenario: raw row with keys `Order No` and `Qty`,
mapping `order_id ↦ Order No`, `qty ↦ Qty`, `sku` unmapped. -/
def demoRow : Obj String := [("Order No", "1"), ("Qty", "2")]

def demoMapping : Mapping :=
  [("order_id", some "Order No"), ("qty", some "Qty"), ("sku", none)]

theorem mapping_engine_field_semantics_witness :
    getProp (confirmRow demoMapping demoRow) "order_id" = some "1" ∧
    getProp (confirmRow demoMapping demoRow) "qty" = some "2" ∧
    getProp (confirmRow demoMapping demoRow) "sku" = none :=
  ⟨(mapping_engine_field_semantics [demoRow] demoMapping (by decide)).2.1
      demoRow "order_id" "Order No" "1" (by decide) (by decide) (by decide),
   (mapping_engine_field_semantics [demoRow] demoMapping (by decide)).2.1
      demoRow "qty" "Qty" "2" (by decide) (by decide) (by decide),
   (mapping_engine_field_semantics [demoRow] demoMapping (by decide)).2.2.1
      demoRow "sku" (by decide)⟩

/-- C2. Applying the mapping to the first-10 slice equals taking the
first-10 slice of applying it to all rows, and the previewed dataset
(`reprocessPreviewWithMapping`) and the committed dataset
(`fullMappedData` of `handleConfirmImport`) are produced by the same
mapping function `applyMapping`, differing only in which rows are
passed in. -/
theorem preview_commit_slice_consistency (α : Type) :
    (∀ (rows : List (Obj α)) (m : Mapping),
        applyMapping (rows.take 10) m = (applyMapping rows m).take 10) ∧
    (∀ (m : Mapping) (row : Obj α), reprocessRow m row = confirmRow m row) ∧
    (∀ (m : Mapping) (rows : List (Obj α)),
        reprocessPreviewWithMapping m rows = applyMapping rows m ∧
        fullMappedData m rows = applyMapping rows m) := by
  refine ⟨?_, ?_, ?_⟩
  · intro rows m
    unfold applyMapping
    exact List.map_take (confirmRow m) rows 10
  · intro m row
    rfl
  · intro m rows
    exact ⟨rfl, rfl⟩

-- ===== Preview/Cache Controller: fetchAndPreview (lines 239-283) =====

/-- The module-level session variables `apiData`, `mappingData`,
`previewData` (lines 50-52); each is `null` until a preview succeeds. -/
structure SessionVars (α : Type) where
  apiData : Option (List (Obj α))
  mappingData : Option Mapping
  previewData : Option (List (Obj α))
deriving DecidableEq

/-- The session at page load: all three variables `null`. -/
def emptySession (α : Type) : SessionVars α := ⟨none, none, none⟩

/-- A successful preview response body
`{data, mapping, preview, total_rows, from_cache, cache_expires}` —
only the three fields stored into the session are modelled. -/
structure PreviewPayload (α : Type) where
  data : List (Obj α)
  mapping : Mapping
  preview : List (Obj α)
deriving DecidableEq

/-- How one `fetch` of `fetchAndPreview` can end: the promise resolves
with an ok response whose body parsed (`success`), resolves with a
non-ok status and body `{error}` (`httpError`, `none` for a missing or
empty `error` field), or rejects (`networkFail`). -/
inductive FetchOutcome (α : Type) where
  | success (p : PreviewPayload α)
  | httpError (err : Option String)
  | networkFail (msg : String)
deriving DecidableEq

/-- The fallback user-facing message of line 264. -/
def defaultFetchErrMsg : String := "เกิดข้อผิดพลาดในการดึงข้อมูล"

/-- `fetchAndPreview` (lines 252-282) as a transition on the session
variables: on success the three variables are assigned from the result
(lines 268-270); on a non-ok status the code throws
`result.error || default` before any assignment; on network failure the
thrown error's message is shown. The second component is the message
passed to `showError`, `none` on success. -/
def fetchAndPreview {α : Type} (s : SessionVars α) (o : FetchOutcome α) :
    SessionVars α × Option String :=
  match o with
  | .success p => (⟨some p.data, some p.mapping, some p.preview⟩, none)
  | .httpError err =>
    (s, some (match err with
      | some m => if m = "" then defaultFetchErrMsg else m
      | none => defaultFetchErrMsg))
  | .networkFail msg => (s, some msg)

/-- The session after one resolved preview response (ignoring the
rendered error). -/
def applyResolved {α : Type} (s : SessionVars α) (o : FetchOutcome α) :
    SessionVars α :=
  (fetchAndPreview s o).1

/-- The session after a sequence of preview responses, applied in the
order in which they resolve — this is all the source does: there is no
request token, so the last response to resolve always wins. -/
def runResolutions {α : Type} (s : SessionVars α)
    (os : List (FetchOutcome α)) : SessionVars α :=
  os.foldl applyResolved s

/-- Concrete payload of the slow first request A. -/
def payloadA : PreviewPayload String :=
  ⟨[[("a", "1")]], [("order_id", some "a")], [[("order_id", "1")]]⟩

/-- Concrete payload of the fast second request B. -/
def payloadB : PreviewPayload String :=
  ⟨[[("b", "2")]], [("order_id", some "b")], [[("order_id", "2")]]⟩

/-- C3 (failing input). Fetch A is issued, then fetch B; B resolves
first, then A resolves. The source has no session token and no
stale-response discard (`fetchAndPreview`, lines 252-283, assigns
unconditionally), so the session ends up holding A's data, mapping and
preview — the stale result the claim says must never be observed — and
A's payload differs from B's. -/
theorem stale_preview_overwrites_session :
    runResolutions (emptySession String)
        [FetchOutcome.success payloadB, FetchOutcome.success payloadA]
      = ⟨some payloadA.data, some payloadA.mapping, some payloadA.preview⟩ ∧
    payloadA ≠ payloadB := by
  constructor
  · rfl
  · decide

/-- C6. A failed preview (network failure or non-ok backend status)
leaves every session variable exactly as it was before the call and
yields a user-facing error message. -/
theorem failed_preview_preserves_session {α : Type} (s : SessionVars α)
    (o : FetchOutcome α) (h : ∀ p, o ≠ FetchOutcome.success p) :
    (fetchAndPreview s o).1 = s ∧ ∃ msg, (fetchAndPreview s o).2 = some msg := by
  cases o with
  | success p => exact absurd rfl (h p)
  | httpError err =>
    cases err with
    | none => exact ⟨rfl, defaultFetchErrMsg, rfl⟩
    | some m =>
      by_cases hm : m = ""
      · exact ⟨rfl, defaultFetchErrMsg, by simp [fetchAndPreview, hm]⟩
      · exact ⟨rfl, m, by simp [fetchAndPreview, hm]⟩
  | networkFail msg => exact ⟨rfl, msg, rfl⟩

theorem failed_preview_preserves_session_witness :
    (fetchAndPreview (SessionVars.mk (some [demoRow]) (some demoMapping)
        (some [demoRow])) (FetchOutcome.httpError (some "HTTP 500"))).1
      = SessionVars.mk (some [demoRow]) (some demoMapping) (some [demoRow]) ∧
    ∃ msg, (fetchAndPreview (SessionVars.mk (some [demoRow])
        (some demoMapping) (some [demoRow]))
        (FetchOutcome.httpError (some "HTTP 500"))).2 = some msg :=
  failed_preview_preserves_session
    (SessionVars.mk (some [demoRow]) (some demoMapping) (some [demoRow]))
    (FetchOutcome.httpError (some "HTTP 500"))
    (fun _ h => FetchOutcome.noConfusion h)

-- ===== Import Committer: handleConfirmImport (lines 425-514) =====

/-- The two validation switches of the merged configuration
(`requirePlatform`, `requireShopName`). -/
structure UIConfig where
  requirePlatform : Bool
  requireShopName : Bool
deriving DecidableEq

/-- How one invocation of `handleConfirmImport` ends before any network
activity, or with the import request it sends. -/
inductive CommitDecision (α : Type) where
  | noData
  | missingPlatform
  | missingShopName
  | cancelled
  | sendImport (payload : List (Obj α))
deriving DecidableEq

/-- The synchronous prefix of `handleConfirmImport` (lines 428-465):
the `!apiData || !mappingData` guard (a `null` session variable is
falsy; a present array or object — even empty — is truthy), the
`requirePlatform` / `requireShopName` checks against the form fields,
the full-dataset remap, and the operator `confirm` dialog. `sendImport`
is reached exactly when the `fetch` of line 473 is issued. -/
def handleConfirmImportDecision {α : Type} (cfg : UIConfig)
    (apiData : Option (List (Obj α))) (mappingData : Option Mapping)
    (platform shopName : String) (confirmAccepted : Bool) :
    CommitDecision α :=
  match apiData, mappingData with
  | some rows, some m =>
    if cfg.requirePlatform ∧ platform = "" then .missingPlatform
    else if cfg.requireShopName ∧ shopName = "" then .missingShopName
    else if confirmAccepted then .sendImport (fullMappedData m rows)
    else .cancelled
  | _, _ => .noData

/-- C5 (counterexample). A session whose `rawRows` is the *empty array*
(present but with no records) together with a present mapping: the
guard `!apiData || !mappingData` does not fire, because in JavaScript
an empty array is truthy, so commit does not fail with `NoDataError`;
after the operator confirms, the import network call is issued (with
zero records), contradicting the claim that an empty `rawRows` fails
before any network call. -/
theorem empty_rawRows_commit_counterexample :
    handleConfirmImportDecision ⟨true, false⟩
        (some ([] : List (Obj String))) (some demoMapping) "shopee" "" true
      = CommitDecision.sendImport [] ∧
    CommitDecision.sendImport ([] : List (Obj String)) ≠
      CommitDecision.noData := by
  constructor
  · rfl
  · decide

/-- C5 (amended). When the session holds no fetched data at all
(`apiData` null) or no mapping (`mappingData` null), commit fails with
the no-data alert before any network call; an empty-but-present
`rawRows` array passes the guard instead. -/
theorem absent_session_commit_noData {α : Type} (cfg : UIConfig)
    (apiData : Option (List (Obj α))) (mappingData : Option Mapping)
    (platform shopName : String) (confirmAccepted : Bool)
    (h : apiData = none ∨ mappingData = none) :
    handleConfirmImportDecision cfg apiData mappingData platform shopName
      confirmAccepted = CommitDecision.noData := by
  rcases h with h | h
  · rw [h]
    cases mappingData <;> rfl
  · rw [h]
    cases apiData <;> rfl

theorem absent_session_commit_noData_witness :
    handleConfirmImportDecision ⟨true, false⟩
        (none : Option (List (Obj String))) (some demoMapping) "shopee" "x"
        true = CommitDecision.noData :=
  absent_session_commit_noData ⟨true, false⟩ none (some demoMapping)
    "shopee" "x" true (Or.inl rfl)

-- ===== Single-flight commit: the button discipline of lines 468-513 =====

/-- The observable commit-trigger state: whether `btnConfirmImport` is
disabled, whether an import request is outstanding, and how many import
network calls have been issued. -/
structure CommitMachine where
  btnDisabled : Bool
  inFlight : Bool
  importCalls : Nat
deriving DecidableEq

/-- One click of the commit trigger. A disabled HTML button dispatches
no click event, so a click while `btnDisabled` changes nothing. An
enabled click runs the synchronous prefix of `handleConfirmImport`
atomically (single-threaded event loop): if it reaches `sendImport`,
the button is disabled (line 469) and the `fetch` of line 473 is
issued; any earlier `return` leaves the state unchanged. -/
def commitClick {α : Type} (cfg : UIConfig)
    (apiData : Option (List (Obj α))) (mappingData : Option Mapping)
    (platform shopName : String) (confirmAccepted : Bool)
    (s : CommitMachine) : CommitMachine :=
  if s.btnDisabled then s
  else
    match handleConfirmImportDecision cfg apiData mappingData platform
        shopName confirmAccepted with
    | .sendImport _ => ⟨true, true, s.importCalls + 1⟩
    | _ => s

/-- The continuation after the import request settles (success or
failure): the `finally` block of lines 509-513 re-enables the button. -/
def commitResolve (s : CommitMachine) : CommitMachine :=
  if s.inFlight then ⟨false, false, s.importCalls⟩ else s

/-- C4. Single-flight commit: a click while the trigger is disabled (it
stays disabled for the whole request) is a no-op — ignored, not queued,
no network call; from an idle trigger, two clicks before the request
resolves issue at most one network call (exactly one when the commit
proceeds to its request), and once the request resolves the trigger is
re-enabled. -/
theorem commit_single_flight {α : Type} (cfg : UIConfig)
    (apiData : Option (List (Obj α))) (mappingData : Option Mapping)
    (platform shopName : String) (confirmAccepted : Bool)
    (s : CommitMachine) (hidle : s.btnDisabled = false) :
    (∀ t : CommitMachine, t.btnDisabled = true →
        commitClick cfg apiData mappingData platform shopName
          confirmAccepted t = t) ∧
    commitClick cfg apiData mappingData platform shopName confirmAccepted
        (commitClick cfg apiData mappingData platform shopName
          confirmAccepted s)
      = commitClick cfg apiData mappingData platform shopName
          confirmAccepted s ∧
    (commitClick cfg apiData mappingData platform shopName confirmAccepted
        s).importCalls ≤ s.importCalls + 1 ∧
    (∀ payload : List (Obj α),
      handleConfirmImportDecision cfg apiData mappingData platform shopName
          confirmAccepted = CommitDecision.sendImport payload →
        (commitClick cfg apiData mappingData platform shopName
            confirmAccepted s).btnDisabled = true ∧
        (commitClick cfg apiData mappingData platform shopName
            confirmAccepted s).importCalls = s.importCalls + 1 ∧
        (commitResolve (commitClick cfg apiData mappingData platform
            shopName confirmAccepted s)).btnDisabled = false) := by
  refine ⟨?_, ?_, ?_, ?_⟩
  · intro t ht
    unfold commitClick
    rw [if_pos ht]
  · cases hd : handleConfirmImportDecision cfg apiData mappingData platform
        shopName confirmAccepted <;>
      simp [commitClick, hidle, hd]
  · cases hd : handleConfirmImportDecision cfg apiData mappingData platform
        shopName confirmAccepted <;>
      simp [commitClick, hidle, hd]
  · intro payload hd
    simp [commitClick, commitResolve, hidle, hd]

theorem commit_single_flight_witness :
    commitClick ⟨true, false⟩ (some [demoRow]) (some demoMapping) "shopee"
        "" true
        (commitClick ⟨true, false⟩ (some [demoRow]) (some demoMapping)
          "shopee" "" true ⟨false, false, 0⟩)
      = commitClick ⟨true, false⟩ (some [demoRow]) (some demoMapping)
          "shopee" "" true ⟨false, false, 0⟩ ∧
    (commitClick ⟨true, false⟩ (some [demoRow]) (some demoMapping) "shopee"
        "" true ⟨false, false, 0⟩).importCalls ≤ 0 + 1 ∧
    (commitClick ⟨true, false⟩ (some [demoRow]) (some demoMapping) "shopee"
        "" true ⟨false, false, 0⟩).btnDisabled = true ∧
    (commitClick ⟨true, false⟩ (some [demoRow]) (some demoMapping) "shopee"
        "" true ⟨false, false, 0⟩).importCalls = 0 + 1 ∧
    (commitResolve (commitClick ⟨true, false⟩ (some [demoRow])
        (some demoMapping) "shopee" "" true
        ⟨false, false, 0⟩)).btnDisabled = false :=
  ⟨(commit_single_flight ⟨true, false⟩ (some [demoRow]) (some demoMapping)
      "shopee" "" true ⟨false, false, 0⟩ rfl).2.1,
   (commit_single_flight ⟨true, false⟩ (some [demoRow]) (some demoMapping)
      "shopee" "" true ⟨false, false, 0⟩ rfl).2.2.1,
   ((commit_single_flight ⟨true, false⟩ (some [demoRow]) (some demoMapping)
      "shopee" "" true ⟨false, false, 0⟩ rfl).2.2.2
      (fullMappedData demoMapping [demoRow]) rfl).1,
   ((commit_single_flight ⟨true, false⟩ (some [demoRow]) (some demoMapping)
      "shopee" "" true ⟨false, false, 0⟩ rfl).2.2.2
      (fullMappedData demoMapping [demoRow]) rfl).2.1,
   ((commit_single_flight ⟨true, false⟩ (some [demoRow]) (some demoMapping)
      "shopee" "" true ⟨false, false, 0⟩ rfl).2.2.2
      (fullMappedData demoMapping [demoRow]) rfl).2.2⟩

-- ===== Saved Configuration Store (lines 550-935) =====

/-- A persisted `SavedImportConfig` as the backend returns it;
`module_type` is `none` for a legacy record without the field (or with
it `null`), and may also be the empty string, which JavaScript treats
as falsy. Only the fields the studied logic reads are modelled. -/
structure SavedConfig where
  id : Nat
  module_type : Option String
  config_name : String
  api_url : String
deriving DecidableEq

/-- A config counts as untagged when `cfg.module_type` is falsy: the
field is absent/null or the empty string (`!cfg.module_type`). -/
def untagged (cfg : SavedConfig) : Bool :=
  match cfg.module_type with
  | none => true
  | some t => t = ""

/-- The filter of `loadSavedConfigs` (lines 557-561): keep a config when
`!cfg.module_type || cfg.module_type === config.moduleType`. -/
def loadSavedConfigsFilter (configs : List SavedConfig)
    (moduleType : String) : List SavedConfig :=
  configs.filter (fun cfg =>
    match cfg.module_type with
    | none => true
    | some t => t = "" || t = moduleType)

/-- The identical filter of `loadConfigsTable` (lines 725-727). -/
def loadConfigsTableFilter (configs : List SavedConfig)
    (moduleType : String) : List SavedConfig :=
  configs.filter (fun cfg =>
    match cfg.module_type with
    | none => true
    | some t => t = "" || t = moduleType)

/-- C7. The saved-configuration list keeps exactly the configs tagged
with the active module type plus the untagged (falsy `module_type`)
legacy configs, preserves the backend's order (the result is a
subsequence of the response, no client re-sort), and the manage-table
uses the same filter. -/
theorem saved_config_list_filter (configs : List SavedConfig)
    (moduleType : String) :
    (∀ cfg : SavedConfig,
        cfg ∈ loadSavedConfigsFilter configs moduleType ↔
          cfg ∈ configs ∧
            (untagged cfg = true ∨ cfg.module_type = some moduleType)) ∧
    (loadSavedConfigsFilter configs moduleType).Sublist configs ∧
    loadConfigsTableFilter configs moduleType
      = loadSavedConfigsFilter configs moduleType := by
  refine ⟨?_, List.filter_sublist configs, rfl⟩
  intro cfg
  rw [loadSavedConfigsFilter, List.mem_filter]
  constructor
  · rintro ⟨hmem, hp⟩
    refine ⟨hmem, ?_⟩
    cases ht : cfg.module_type with
    | none => exact Or.inl (by simp [untagged, ht])
    | some t =>
      rw [ht] at hp
      simp only [Bool.or_eq_true, decide_eq_true_eq] at hp
      rcases hp with hp | hp
      · exact Or.inl (by simp [untagged, ht, hp])
      · exact Or.inr (by rw [hp])
  · rintro ⟨hmem, hu | he⟩
    · refine ⟨hmem, ?_⟩
      unfold untagged at hu
      cases ht : cfg.module_type with
      | none => simp
      | some t =>
        rw [ht] at hu
        simp only [decide_eq_true_eq] at hu
        simp [hu]
    · exact ⟨hmem, by rw [he]; simp⟩

-- ===== Two-phase delete (lines 866-935) =====

/-- The observable state of the delete flow: the pending record
(`configToDelete`), the `btnConfirmDelete` disabled flag, the ids of
DELETE requests issued so far, the id of the DELETE currently
outstanding, and the backend's config collection. -/
structure DeleteFlowState where
  configToDelete : Option SavedConfig
  btnDisabled : Bool
  deleteCalls : List Nat
  inFlight : Option Nat
  backend : List SavedConfig
deriving DecidableEq

/-- `GET /api/configs/{id}`, modelled from the spec (§6): returns the
stored record with that id when present, `{success: false}` otherwise.
The backend itself is outside src. -/
def backendGet (backend : List SavedConfig) (id : Nat) :
    Option SavedConfig :=
  backend.find? (fun c => c.id == id)

/-- Modelled from the spec: `DELETE /api/configs/{id}` — the backend
endpoint (not under src) removes the record with the given id from the
persistent collection and answers `{success: true}`. -/
def backendDelete (backend : List SavedConfig) (id : Nat) :
    List SavedConfig :=
  backend.filter (fun c => ¬ c.id = id)

/-- Phase 1, `handleDeleteConfig` (lines 866-890): fetch the full record
for the id, store it in `configToDelete` and show the confirmation
modal; nothing is deleted and no DELETE call is issued. On a failed
lookup (`success: false`) nothing changes. -/
def handleDeleteConfig (id : Nat) (s : DeleteFlowState) : DeleteFlowState :=
  match backendGet s.backend id with
  | some c => { s with configToDelete := some c }
  | none => s

/-- Phase 2, `confirmDeleteConfig` (lines 893-935), up to its `await`:
a disabled button dispatches no click; with no pending record the
handler alerts and returns without any network call; otherwise it
disables the button and issues `DELETE /api/configs/{configToDelete.id}`. -/
def confirmDeleteClick (s : DeleteFlowState) : DeleteFlowState :=
  if s.btnDisabled then s
  else
    match s.configToDelete with
    | none => s
    | some c =>
      { s with btnDisabled := true, inFlight := some c.id,
               deleteCalls := s.deleteCalls ++ [c.id] }

/-- The continuation of `confirmDeleteConfig` after the DELETE settles:
on `{success: true}` the backend record is gone, the tables are
reloaded and `configToDelete` is cleared (lines 910-923); on failure
only the alert shows; the `finally` block (lines 930-934) re-enables
the button in both cases. -/
def deleteResolve (success : Bool) (s : DeleteFlowState) : DeleteFlowState :=
  match s.inFlight with
  | none => s
  | some id =>
    if success then
      { s with backend := backendDelete s.backend id,
               configToDelete := none, inFlight := none,
               btnDisabled := false }
    else { s with inFlight := none, btnDisabled := false }

/-- C8. Two-phase delete: phase 1 fetches the full record `X` for the
id and displays it without issuing any DELETE; only the explicit
confirm click issues the DELETE, targeting exactly `X.id`; the trigger
is disabled for the duration of the destructive call (a further click
in flight is a no-op); after a successful resolve the trigger is
re-enabled and the config no longer appears in the reloaded,
module-filtered list. -/
theorem delete_two_phase (s0 : DeleteFlowState) (id : Nat)
    (X : SavedConfig) (hfound : backendGet s0.backend id = some X)
    (hidle : s0.btnDisabled = false) :
    (handleDeleteConfig id s0).configToDelete = some X ∧
    (handleDeleteConfig id s0).deleteCalls = s0.deleteCalls ∧
    (handleDeleteConfig id s0).backend = s0.backend ∧
    (confirmDeleteClick (handleDeleteConfig id s0)).deleteCalls
      = s0.deleteCalls ++ [X.id] ∧
    (confirmDeleteClick (handleDeleteConfig id s0)).btnDisabled = true ∧
    confirmDeleteClick (confirmDeleteClick (handleDeleteConfig id s0))
      = confirmDeleteClick (handleDeleteConfig id s0) ∧
    (deleteResolve true
        (confirmDeleteClick (handleDeleteConfig id s0))).btnDisabled
      = false ∧
    (∀ (moduleType : String) (c : SavedConfig),
        c ∈ loadSavedConfigsFilter
            (deleteResolve true
              (confirmDeleteClick (handleDeleteConfig id s0))).backend
            moduleType →
          c.id ≠ X.id) := by
  have h1 : handleDeleteConfig id s0
      = { s0 with configToDelete := some X } := by
    unfold handleDeleteConfig
    rw [hfound]
  have h2 : confirmDeleteClick (handleDeleteConfig id s0)
      = { s0 with configToDelete := some X, btnDisabled := true,
                  inFlight := some X.id,
                  deleteCalls := s0.deleteCalls ++ [X.id] } := by
    rw [h1]
    unfold confirmDeleteClick
    rw [if_neg (by simp [hidle])]
  refine ⟨by rw [h1], by rw [h1], by rw [h1], by rw [h2], by rw [h2],
    ?_, ?_, ?_⟩
  · rw [h2]
    unfold confirmDeleteClick
    rw [if_pos rfl]
  · rw [h2]
    unfold deleteResolve
    simp
  · intro moduleType c hc
    rw [h2] at hc
    unfold deleteResolve at hc
    simp only at hc
    have hsub := List.Sublist.mem hc
      (saved_config_list_filter _ moduleType).2.1
    unfold backendDelete at hsub
    have := List.mem_filter.mp hsub
    simpa using this.2

/-- Concrete store for the delete-flow witnesses. -/
def demoConfig : SavedConfig :=
  ⟨7, some "orders", "shopA_shopee", "https://api.example.com"⟩

def demoDeleteState : DeleteFlowState :=
  ⟨none, false, [], none, [demoConfig]⟩

theorem delete_two_phase_witness :
    (handleDeleteConfig 7 demoDeleteState).configToDelete
      = some demoConfig ∧
    (handleDeleteConfig 7 demoDeleteState).deleteCalls
      = demoDeleteState.deleteCalls ∧
    (handleDeleteConfig 7 demoDeleteState).backend
      = demoDeleteState.backend ∧
    (confirmDeleteClick (handleDeleteConfig 7 demoDeleteState)).deleteCalls
      = demoDeleteState.deleteCalls ++ [demoConfig.id] ∧
    (confirmDeleteClick
        (handleDeleteConfig 7 demoDeleteState)).btnDisabled = true ∧
    confirmDeleteClick
        (confirmDeleteClick (handleDeleteConfig 7 demoDeleteState))
      = confirmDeleteClick (handleDeleteConfig 7 demoDeleteState) ∧
    (deleteResolve true
        (confirmDeleteClick
          (handleDeleteConfig 7 demoDeleteState))).btnDisabled = false :=
  let h := delete_two_phase demoDeleteState 7 demoConfig (by decide) rfl
  ⟨h.1, h.2.1, h.2.2.1, h.2.2.2.1, h.2.2.2.2.1, h.2.2.2.2.2.1,
   h.2.2.2.2.2.2.1⟩

/-- C10. Confirming a delete with no pending record (`configToDelete`
null) is a no-op that issues no DELETE; a successful delete clears the
pending record back to null, so a repeated confirm click afterwards is
again a no-op and cannot issue a second DELETE for the record. -/
theorem confirm_delete_guards (s : DeleteFlowState) :
    (s.configToDelete = none → confirmDeleteClick s = s) ∧
    (∀ id : Nat, s.inFlight = some id →
        (deleteResolve true s).configToDelete = none ∧
        confirmDeleteClick (deleteResolve true s) = deleteResolve true s) := by
  constructor
  · intro hnone
    unfold confirmDeleteClick
    rw [hnone]
    by_cases hd : s.btnDisabled = true
    · rw [if_pos hd]
    · rw [if_neg hd]
  · intro id hid
    have hres : deleteResolve true s
        = { s with backend := backendDelete s.backend id,
                   configToDelete := none, inFlight := none,
                   btnDisabled := false } := by
      unfold deleteResolve
      rw [hid]
      simp
    refine ⟨by rw [hres], ?_⟩
    rw [hres]
    unfold confirmDeleteClick
    simp

/-- The flow state in the middle of a destructive DELETE for
`demoConfig`. -/
def demoMidFlight : DeleteFlowState :=
  ⟨some demoConfig, true, [7], some 7, [demoConfig]⟩

theorem confirm_delete_guards_witness :
    confirmDeleteClick demoDeleteState = demoDeleteState ∧
    (deleteResolve true demoMidFlight).configToDelete = none ∧
    confirmDeleteClick (deleteResolve true demoMidFlight)
      = deleteResolve true demoMidFlight :=
  ⟨(confirm_delete_guards demoDeleteState).1 rfl,
   ((confirm_delete_guards demoMidFlight).2 7 rfl).1,
   ((confirm_delete_guards demoMidFlight).2 7 rfl).2⟩

-- ===== Mapping Editor: handleSaveMapping (lines 380-396) =====

/-- `matchDrop pat s`: when `pat` is an initial segment of `s`, the rest
of `s` after it; `none` otherwise. -/
def matchDrop : List Char → List Char → Option (List Char)
  | [], s => some s
  | _ :: _, [] => none
  | p :: ps, c :: cs => if p = c then matchDrop ps cs else none

/-- Replace the first occurrence of `pat` in the character list by
`rep`; unchanged when `pat` never occurs. -/
def replaceFirstChars (pat rep : List Char) : List Char → List Char
  | [] => []
  | c :: cs =>
    match matchDrop pat (c :: cs) with
    | some rest => rep ++ rest
    | none => c :: replaceFirstChars pat rep cs

/-- JavaScript `s.replace(pat, rep)` with a string pattern: replaces the
first occurrence only. -/
def jsReplaceFirst (s pat rep : String) : String :=
  String.mk (replaceFirstChars pat.data rep.data s.data)

/-- One iteration of the loop of `handleSaveMapping` (lines 388-391):
for a form entry `(key, value)` (select control name, selected value),
the control name with `mapping_` stripped (`key.replace('mapping_', '')`)
is the canonical field, and `newMapping[wmsField] = value || null` — the
empty selection is stored as `null`. -/
def saveStep (newMapping : Mapping) (kv : String × String) : Mapping :=
  objSet newMapping (jsReplaceFirst kv.1 "mapping_" "")
    (if kv.2 = "" then none else some kv.2)

/-- `handleSaveMapping` builds the new mapping from `{}` over the form
entries. -/
def handleSaveMapping (entries : List (String × String)) : Mapping :=
  entries.foldl saveStep []

theorem mem_objSet {α : Type} (r : Obj α) (k : String) (v : α)
    (a : String × α) (h : a ∈ objSet r k v) : a ∈ r ∨ a = (k, v) := by
  unfold objSet at h
  by_cases hk : hasOwn r k
  · rw [if_pos hk] at h
    rcases List.mem_map.mp h with ⟨b, hb, hba⟩
    by_cases hbk : b.1 = k
    · right
      rw [← hba, if_pos hbk]
    · left
      rw [← hba, if_neg hbk]
      exact hb
  · rw [if_neg hk] at h
    rcases List.mem_append.mp h with h | h
    · exact Or.inl h
    · right
      simpa using h

theorem mem_of_getProp {α : Type} (r : Obj α) (k : String) (v : α)
    (h : getProp r k = some v) : (k, v) ∈ r := by
  unfold getProp at h
  cases hf : r.find? (fun p => p.1 == k) with
  | none => rw [hf] at h; cases h
  | some p =>
    rw [hf] at h
    have hp : p ∈ r := List.mem_of_find?_eq_some hf
    have hpk : p.1 = k := by simpa using List.find?_some hf
    have hpv : p.2 = v := by simpa using h
    rcases p with ⟨a, b⟩
    simp only at hpk hpv
    rw [← hpk, ← hpv]
    exact hp

theorem keys_replace_eq {α : Type} (r : Obj α) (k : String) (v : α) :
    (r.map (fun p => if p.1 = k then (k, v) else p)).map Prod.fst
      = r.map Prod.fst := by
  induction r with
  | nil => rfl
  | cons p t ih =>
    by_cases hpk : p.1 = k
    · simp only [List.map_cons, if_pos hpk]
      rw [ih, hpk]
    · simp only [List.map_cons, if_neg hpk]
      rw [ih]

theorem nodupKeys_objSet {α : Type} (r : Obj α) (k : String) (v : α)
    (h : (r.map Prod.fst).Nodup) : ((objSet r k v).map Prod.fst).Nodup := by
  unfold objSet
  by_cases hk : hasOwn r k
  · rw [if_pos hk, keys_replace_eq]
    exact h
  · rw [if_neg hk, List.map_append, List.nodup_append]
    refine ⟨h, List.nodup_singleton k, ?_⟩
    intro x hx hxk
    have hxk' : x = k := by simpa using hxk
    rcases List.mem_map.mp hx with ⟨p, hp, hpx⟩
    have hkf : hasOwn r k = false := by
      cases hb : hasOwn r k with
      | false => rfl
      | true => exact absurd hb hk
    have hfalse : ¬ (p.1 == k) = true := List.any_eq_false.mp hkf p hp
    have hne : ¬ p.1 = k := by simpa using hfalse
    exact hne (hpx.trans hxk')

theorem nodupKeys_foldl_saveStep (entries : List (String × String))
    (acc : Mapping) (h : (acc.map Prod.fst).Nodup) :
    ((entries.foldl saveStep acc).map Prod.fst).Nodup := by
  induction entries generalizing acc with
  | nil => exact h
  | cons kv t ih =>
    rw [List.foldl_cons]
    exact ih (saveStep acc kv) (nodupKeys_objSet acc _ _ h)

theorem getProp_foldl_saveStep_skip (t : List (String × String))
    (acc : Mapping) (x : String)
    (h : ∀ e ∈ t, jsReplaceFirst e.1 "mapping_" "" ≠ x) :
    getProp (t.foldl saveStep acc) x = getProp acc x := by
  induction t generalizing acc with
  | nil => rfl
  | cons kv s ih =>
    rw [List.foldl_cons,
      ih (saveStep acc kv) (fun e he => h e (List.mem_cons_of_mem kv he))]
    exact getProp_objSet_ne acc _ x _
      (fun he => h kv (List.mem_cons_self kv s) he.symm)

/-- With pairwise-distinct stripped control names, the saved mapping
holds, at each canonical field, exactly `value || null` of that field's
form entry. -/
theorem getProp_foldl_saveStep_found (entries : List (String × String))
    (acc : Mapping) (key v : String)
    (hnd : (entries.map (fun p => jsReplaceFirst p.1 "mapping_" "")).Nodup)
    (hm : (key, v) ∈ entries) :
    getProp (entries.foldl saveStep acc) (jsReplaceFirst key "mapping_" "")
      = some (if v = "" then none else some v) := by
  induction entries generalizing acc with
  | nil => cases hm
  | cons kv t ih =>
    rw [List.map_cons, List.nodup_cons] at hnd
    rcases List.mem_cons.mp hm with heq | hmem
    · have hk1 : jsReplaceFirst kv.1 "mapping_" ""
          = jsReplaceFirst key "mapping_" "" := by
        rw [← heq]
      have hnot : ∀ e ∈ t, jsReplaceFirst e.1 "mapping_" ""
          ≠ jsReplaceFirst key "mapping_" "" := by
        intro e he hek
        exact hnd.1 (hk1 ▸ hek ▸
          List.mem_map_of_mem (fun p => jsReplaceFirst p.1 "mapping_" "") he)
      rw [List.foldl_cons,
        getProp_foldl_saveStep_skip t (saveStep acc kv) _ hnot]
      rw [← hk1]
      have hval : (if kv.2 = "" then (none : Option String) else some kv.2)
          = (if v = "" then none else some v) := by
        rw [← heq]
      rw [← hval]
      exact getProp_objSet_self acc _ _
    · rw [List.foldl_cons]
      exact ih (saveStep acc kv) hnd.2 hmem

theorem foldl_saveStep_values (entries : List (String × String))
    (acc : Mapping) (hacc : ∀ k f, (k, some f) ∈ acc → f ≠ "") :
    ∀ k f, (k, some f) ∈ entries.foldl saveStep acc → f ≠ "" := by
  induction entries generalizing acc with
  | nil => exact hacc
  | cons kv t ih =>
    rw [List.foldl_cons]
    refine ih (saveStep acc kv) ?_
    intro k f hmem
    rcases mem_objSet acc _ _ (k, some f) hmem with h | h
    · exact hacc k f h
    · have h2 : some f = (if kv.2 = "" then none else some kv.2) :=
        congrArg Prod.snd h
      by_cases hv : kv.2 = ""
      · rw [if_pos hv] at h2
        cases h2
      · rw [if_neg hv] at h2
        rw [Option.some.inj h2]
        exact hv

/-- C9. Saving the edited mapping stores each canonical field whose
dropdown selection is the empty string as `null` (`value || null`,
line 390): the empty string never appears as a mapping target, and the
subsequent remap (`reprocessPreviewWithMapping`, whose per-row body is
`confirmRow`) omits that canonical field from every mapped record.
Stated for form entries with pairwise-distinct stripped names — each
canonical field has a single select control. -/
theorem save_mapping_empty_selection (α : Type)
    (entries : List (String × String))
    (hnd : (entries.map (fun p => jsReplaceFirst p.1 "mapping_" "")).Nodup) :
    (∀ k f, (k, some f) ∈ handleSaveMapping entries → f ≠ "") ∧
    (∀ key : String, (key, "") ∈ entries →
        getProp (handleSaveMapping entries)
          (jsReplaceFirst key "mapping_" "") = some none) ∧
    (∀ (key : String) (row : Obj α), (key, "") ∈ entries →
        getProp (confirmRow (handleSaveMapping entries) row)
          (jsReplaceFirst key "mapping_" "") = none) := by
  have hb : ∀ key : String, (key, "") ∈ entries →
      getProp (handleSaveMapping entries)
        (jsReplaceFirst key "mapping_" "") = some none := by
    intro key hkey
    have := getProp_foldl_saveStep_found entries [] key "" hnd hkey
    simpa [handleSaveMapping] using this
  refine ⟨?_, hb, ?_⟩
  · exact foldl_saveStep_values entries [] (fun k f h => absurd h
      (List.not_mem_nil (k, some f)))
  · intro key row hkey
    have hmem := mem_of_getProp _ _ _ (hb key hkey)
    have hnodup : ((handleSaveMapping entries).map Prod.fst).Nodup :=
      nodupKeys_foldl_saveStep entries [] List.nodup_nil
    exact getProp_foldl_confirmStep_omitted row (handleSaveMapping entries)
      [] (jsReplaceFirst key "mapping_" "") none hnodup hmem (Or.inl rfl)
      (getProp_nil _)

/-- Concrete form entries: `order_id` mapped to `Order No`, `sku` left
as the empty selection. -/
def demoEntries : List (String × String) :=
  [("mapping_order_id", "Order No"), ("mapping_sku", "")]

theorem save_mapping_empty_selection_witness :
    getProp (handleSaveMapping demoEntries)
        (jsReplaceFirst "mapping_sku" "mapping_" "") = some none ∧
    getProp (confirmRow (handleSaveMapping demoEntries) demoRow)
        (jsReplaceFirst "mapping_sku" "mapping_" "") = none :=
  ⟨(save_mapping_empty_selection String demoEntries (by decide)).2.1
      "mapping_sku" (by decide),
   (save_mapping_empty_selection String demoEntries (by decide)).2.2
      "mapping_sku" demoRow (by decide)⟩

end ApiImport
